import Mathlib

set_option autoImplicit false

/-!
Shallow embedding of the `ts-core` Option/Result algebra
(`src/types/maybe/option.ts`, `src/types/maybe/result.ts`,
`src/types/maybe/option-async.ts`, `src/types/maybe/result-async.ts`,
`src/utils/string/toString.ts`).

Modelling conventions:
* `Option`/`Result` are the tagged unions (`Some`/`None`, `Ok`/`Err`).
* `OptionAsync`/`ResultAsync` wrap exactly one pending computation of the
  sync type; a settled promise is modelled by its resolution value, so the
  wrapper structures hold the `Option`/`Result` the promise resolves to
  (fields named `option` / `result` exactly as in the source).
* TypeScript functions that may throw are modelled as `Unit → Except ε _`.
* `null`/`undefined` inputs are modelled by explicit constructors of small
  input universes (`FromInput`, `Nullable`) mirroring the declared
  TypeScript parameter types.
* Source names are kept except where Lean reserves the word:
  `Option.from` becomes `Option.fromValue`, the `match` method becomes
  `matchWith`, and the `ok()`/`err()` projections of `Result` (whose names
  collide with the `Result.ok`/`Result.err` constructors) become
  `okOption`/`errOption`.
-/

namespace TsCore

universe u v

/-- Source `Option<T> = None | Some<T>` (option.ts). -/
inductive Option (α : Type u) where
  | none : Option α
  | some (value : α) : Option α
  deriving DecidableEq, Repr

/-- Source `Result<T, E> = Err<E> | Ok<T>` (result.ts). -/
inductive Result (α : Type u) (ε : Type v) where
  | ok (value : α) : Result α ε
  | err (error : ε) : Result α ε
  deriving DecidableEq, Repr

/-- Source `OptionAsync<T>` owns one pending `Promise<Option<T>>`; modelled by the
settled value of that promise (option-async.ts, field `option`). -/
structure OptionAsync (α : Type u) where
  option : Option α
  deriving DecidableEq, Repr

/-- Source `ResultAsync<T, E>` owns one pending `Promise<Result<T, E>>`; modelled by
the settled value of that promise (result-async.ts, field `result`). -/
structure ResultAsync (α : Type u) (ε : Type v) where
  result : Result α ε
  deriving DecidableEq, Repr

/-- The matcher object `{ some(value): U; none(): U }` of `Option.match`. -/
structure OptionMatcher (α : Type u) (υ : Type v) where
  some : α → υ
  none : Unit → υ

/-- The matcher object `{ ok(value): U; err(error): U }` of `Result.match`. -/
structure ResultMatcher (α : Type u) (ε : Type v) (υ : Type v) where
  ok : α → υ
  err : ε → υ

variable {α β γ : Type u} {ε φ : Type u} {υ : Type u}

/-- Source `isSome()`: `Some` returns `true`, `None` returns `false`. -/
def Option.isSome : Option α → Bool
  | .none => false
  | .some _ => true

/-- Source `isNone()`: `None` returns `true`, `Some` returns `false`. -/
def Option.isNone : Option α → Bool
  | .none => true
  | .some _ => false

/-- Source `Option.map(fn)`: `None.map` returns `this`; `Some.map` returns
`some(fn(this.value))`. -/
def Option.map (o : Option α) (fn : α → β) : Option β :=
  match o with
  | .none => .none
  | .some v => .some (fn v)

/-- Source `Option.andThen(fn)`: `None.andThen` returns `this`; `Some.andThen`
returns `fn(this.value)` directly (no rewrapping). -/
def Option.andThen (o : Option α) (fn : α → Option β) : Option β :=
  match o with
  | .none => .none
  | .some v => fn v

/-- Source `Option.match(matcher)`: calls exactly one branch. -/
def Option.matchWith (o : Option α) (m : OptionMatcher α υ) : υ :=
  match o with
  | .none => m.none ()
  | .some v => m.some v

/-- Source `Option.okOr(error)`: `Some(v)` gives `ok(v)`, `None` gives `err(error)`. -/
def Option.okOr (o : Option α) (error : ε) : Result α ε :=
  match o with
  | .none => .err error
  | .some v => .ok v

/-- Source `Option.okOrElse(fn)`: `Some(v)` gives `ok(v)`, `None` gives `err(fn())`. -/
def Option.okOrElse (o : Option α) (fn : Unit → ε) : Result α ε :=
  match o with
  | .none => .err (fn ())
  | .some v => .ok v

/-- Source `Option.unwrapOr(value)`. -/
def Option.unwrapOr (o : Option α) (value : α) : α :=
  match o with
  | .none => value
  | .some v => v

/-- Source `Option.unwrapOrElse(fn)`. -/
def Option.unwrapOrElse (o : Option α) (fn : Unit → α) : α :=
  match o with
  | .none => fn ()
  | .some v => v

/-- Source `isOk()`. -/
def Result.isOk : Result α ε → Bool
  | .ok _ => true
  | .err _ => false

/-- Source `isErr()`. -/
def Result.isErr : Result α ε → Bool
  | .ok _ => false
  | .err _ => true

/-- Source `Result.map(fn)`: `Err.map` returns `this`; `Ok.map` returns
`ok(fn(this.value))`. -/
def Result.map (r : Result α ε) (fn : α → β) : Result β ε :=
  match r with
  | .ok v => .ok (fn v)
  | .err e => .err e

/-- Source `Result.mapErr(fn)`: `Ok.mapErr` returns `this`; `Err.mapErr` returns
`err(fn(this.error))`. -/
def Result.mapErr (r : Result α ε) (fn : ε → φ) : Result α φ :=
  match r with
  | .ok v => .ok v
  | .err e => .err (fn e)

/-- Source `Result.andThen(fn)`: `Err.andThen` returns `this`; `Ok.andThen` returns
`fn(this.value)` directly. -/
def Result.andThen (r : Result α ε) (fn : α → Result β ε) : Result β ε :=
  match r with
  | .ok v => fn v
  | .err e => .err e

/-- Source `Result.orElse(fn)`: `Ok.orElse` returns `this`; `Err.orElse` returns
`fn(this.error)` directly. -/
def Result.orElse (r : Result α ε) (fn : ε → Result α φ) : Result α φ :=
  match r with
  | .ok v => .ok v
  | .err e => fn e

/-- Source `Result.match(matcher)`: calls exactly one branch. -/
def Result.matchWith (r : Result α ε) (m : ResultMatcher α ε υ) : υ :=
  match r with
  | .ok v => m.ok v
  | .err e => m.err e

/-- The `ok()` projection of `Result` (named `okOption` because the source
method name collides with the `Result.ok` constructor): `Ok(v)` gives
`some(v)`, `Err` gives `none()`. -/
def Result.okOption (r : Result α ε) : Option α :=
  match r with
  | .ok v => .some v
  | .err _ => .none

/-- The `err()` projection of `Result`: `Err(e)` gives `some(e)`, `Ok` gives
`none()`. -/
def Result.errOption (r : Result α ε) : Option ε :=
  match r with
  | .ok _ => .none
  | .err e => .some e

/-- Source `Result.unwrapOr(value)`. -/
def Result.unwrapOr (r : Result α ε) (value : α) : α :=
  match r with
  | .ok v => v
  | .err _ => value

/-- Source `Result.unwrapOrElse(fn)`. -/
def Result.unwrapOrElse (r : Result α ε) (fn : Unit → α) : α :=
  match r with
  | .ok v => v
  | .err _ => fn ()

/-- Source `Result.unwrapErrOr(error)`. -/
def Result.unwrapErrOr (r : Result α ε) (error : ε) : ε :=
  match r with
  | .ok _ => error
  | .err e => e

/-- Source `Result.unwrapErrOrElse(fn)`. -/
def Result.unwrapErrOrElse (r : Result α ε) (fn : Unit → ε) : ε :=
  match r with
  | .ok _ => fn ()
  | .err e => e

/-- Callback result of `OptionAsync.andThen`: the source accepts
`Option<U> | OptionAsync<U>` and normalizes with an `instanceof` check. -/
inductive OptionLike (α : Type u) where
  | plain (o : Option α)
  | wrapped (oa : OptionAsync α)

/-- Callback result of `ResultAsync.andThen` / `orElse`: the source accepts
`Result | Promise<Result> | ResultAsync` (a settled `Promise<Result>` is its
resolution value, hence `plain`). -/
inductive ResultLike (α : Type u) (ε : Type v) where
  | plain (r : Result α ε)
  | wrapped (ra : ResultAsync α ε)

/-- Source `OptionAsync.map(fn)`: await the wrapped option; `None` resolves to a
fresh `none()`, `Some` resolves to `some(await fn(option.inner()))`. -/
def OptionAsync.map (x : OptionAsync α) (fn : α → β) : OptionAsync β :=
  ⟨match x.option with
    | .none => .none
    | .some v => .some (fn v)⟩

/-- Source `OptionAsync.andThen(fn)`: await the wrapped option; `None` resolves to
`none()`; `Some` applies `fn` and, when the callback returns an
`OptionAsync`, awaits its inner promise. -/
def OptionAsync.andThen (x : OptionAsync α) (fn : α → OptionLike β) :
    OptionAsync β :=
  ⟨match x.option with
    | .none => .none
    | .some v =>
      match fn v with
      | .plain o => o
      | .wrapped oa => oa.option⟩

/-- Source `OptionAsync.okOr(error)`: `None` resolves to `err(error)`, `Some` to
`ok(option.inner())`. -/
def OptionAsync.okOr (x : OptionAsync α) (error : ε) : ResultAsync α ε :=
  ⟨match x.option with
    | .none => .err error
    | .some v => .ok v⟩

/-- Source `OptionAsync.okOrElse(fn)`: `None` resolves to `err(await fn())`, `Some`
to `ok(option.inner())`. -/
def OptionAsync.okOrElse (x : OptionAsync α) (fn : Unit → ε) :
    ResultAsync α ε :=
  ⟨match x.option with
    | .none => .err (fn ())
    | .some v => .ok v⟩

/-- Source `OptionAsync.match(matcher)`: `(await this.option).match(matcher)`. -/
def OptionAsync.matchWith (x : OptionAsync α) (m : OptionMatcher α υ) : υ :=
  x.option.matchWith m

/-- Source `OptionAsync.unwrapOr(value)`: `(await this.option).unwrapOr(value)`. -/
def OptionAsync.unwrapOr (x : OptionAsync α) (value : α) : α :=
  x.option.unwrapOr value

/-- Source `OptionAsync.unwrapOrElse(fn)`:
`await (await this.option).unwrapOrElse(fn)`. -/
def OptionAsync.unwrapOrElse (x : OptionAsync α) (fn : Unit → α) : α :=
  x.option.unwrapOrElse fn

/-- Source `ResultAsync.map(fn)`: await the wrapped result; an `Err` result is
returned as is, an `Ok` resolves to `ok(await fn(result.inner()))`. -/
def ResultAsync.map (x : ResultAsync α ε) (fn : α → β) : ResultAsync β ε :=
  ⟨match x.result with
    | .ok v => .ok (fn v)
    | .err e => .err e⟩

/-- Source `ResultAsync.mapErr(fn)`: an `Ok` result is returned as is, an `Err`
resolves to `err(await fn(result.inner()))`. -/
def ResultAsync.mapErr (x : ResultAsync α ε) (fn : ε → φ) : ResultAsync α φ :=
  ⟨match x.result with
    | .ok v => .ok v
    | .err e => .err (fn e)⟩

/-- Source `ResultAsync.andThen(fn)`: an `Err` result is returned as is; `Ok`
applies `fn`, awaiting a `ResultAsync` callback result. -/
def ResultAsync.andThen (x : ResultAsync α ε) (fn : α → ResultLike β ε) :
    ResultAsync β ε :=
  ⟨match x.result with
    | .err e => .err e
    | .ok v =>
      match fn v with
      | .plain r => r
      | .wrapped ra => ra.result⟩

/-- Source `ResultAsync.orElse(fn)`: an `Ok` result is returned as is; `Err`
applies `fn`, awaiting a `ResultAsync` callback result. -/
def ResultAsync.orElse (x : ResultAsync α ε) (fn : ε → ResultLike α φ) :
    ResultAsync α φ :=
  ⟨match x.result with
    | .ok v => .ok v
    | .err e =>
      match fn e with
      | .plain r => r
      | .wrapped ra => ra.result⟩

/-- Source `ResultAsync.ok()`: `new OptionAsync(this.result.then(r => r.ok()))`. -/
def ResultAsync.okOption (x : ResultAsync α ε) : OptionAsync α :=
  ⟨x.result.okOption⟩

/-- Source `ResultAsync.err()`: `new OptionAsync(this.result.then(r => r.err()))`. -/
def ResultAsync.errOption (x : ResultAsync α ε) : OptionAsync ε :=
  ⟨x.result.errOption⟩

/-- Source `ResultAsync.match(matcher)`: `(await this.result).match(matcher)`. -/
def ResultAsync.matchWith (x : ResultAsync α ε) (m : ResultMatcher α ε υ) :
    υ :=
  x.result.matchWith m

/-- Source `ResultAsync.unwrapOr(value)`. -/
def ResultAsync.unwrapOr (x : ResultAsync α ε) (value : α) : α :=
  x.result.unwrapOr value

/-- Source `ResultAsync.unwrapOrElse(fn)`. -/
def ResultAsync.unwrapOrElse (x : ResultAsync α ε) (fn : Unit → α) : α :=
  x.result.unwrapOrElse fn

/-- Loop body of `Result.all`: walks the argument list carrying the
`okValues` accumulator; the first `Err` encountered is returned as is
(`return result`), otherwise `result.inner()` is pushed. After the loop
the accumulated values are wrapped: `ok(okValues)`. -/
def Result.allLoop : List (Result α ε) → List α → Result (List α) ε
  | [], okValues => .ok okValues
  | result :: rest, okValues =>
    match result with
    | .err e => .err e
    | .ok v => Result.allLoop rest (okValues ++ [v])

/-- Source `Result.all(...results)` (result.ts, namespace combinator). -/
def Result.all (results : List (Result α ε)) : Result (List α) ε :=
  Result.allLoop results []

/-- Loop body of `Result.any`: walks the argument list carrying the
`errValues` accumulator; the first `Ok` encountered is returned as is,
otherwise `result.inner()` is pushed. After the loop the accumulated
errors are wrapped: `err(errValues)`. -/
def Result.anyLoop : List (Result α ε) → List ε → Result α (List ε)
  | [], errValues => .err errValues
  | result :: rest, errValues =>
    match result with
    | .ok v => .ok v
    | .err e => Result.anyLoop rest (errValues ++ [e])

/-- Source `Result.any(...results)` (result.ts, namespace combinator). -/
def Result.any (results : List (Result α ε)) : Result α (List ε) :=
  Result.anyLoop results []

/-- Input universe of `Option.from`, whose declared parameter type is
`null | Option<T> | T | undefined`. -/
inductive FromInput (α : Type u) where
  | null : FromInput α
  | undefined : FromInput α
  | opt (o : Option α) : FromInput α
  | raw (v : α) : FromInput α
  deriving DecidableEq, Repr

/-- Source `Option.from(value)` (named `fromValue`; `from` is a Lean
keyword): an `Option` argument is passed through when it is `Some` and
replaced by `none()` when it is `None`; `null`/`undefined` give `none()`;
any other value is wrapped in `some(value)`. -/
def Option.fromValue : FromInput α → Option α
  | .opt o =>
    match o with
    | .some v => .some v
    | .none => .none
  | .null => .none
  | .undefined => .none
  | .raw v => .some v

/-- Source `Option.wrap(fn)`: invokes `fn`; a normal return goes through
`from(value)`, a thrown error is discarded and `none()` is returned. -/
def Option.wrap {θ : Type u} (fn : Unit → Except θ (FromInput α)) :
    Option α :=
  match fn () with
  | .ok value => Option.fromValue value
  | .error _ => .none

/-- Resolution value of the promise handed to `.then(some)` inside
`Option.wrapAsync`: it may be `null`, `undefined`, or a proper value. -/
inductive Nullable (α : Type u) where
  | null : Nullable α
  | undef : Nullable α
  | val (v : α) : Nullable α
  deriving DecidableEq, Repr

/-- Payload universe distinguishing a raw value, the JS `null` payload, and
the `Unit` default payload produced by `some()` called without argument. -/
inductive SomePayload (α : Type u) where
  | raw (v : α) : SomePayload α
  | nullVal : SomePayload α
  | unitVal : SomePayload α
  deriving DecidableEq, Repr

/-- The `some(value = unit())` entry point applied to an arbitrary resolved
value: the default parameter fires only for `undefined` (JS default
parameters do not fire for `null`), so `null` is wrapped as a payload. -/
def someCtor : Nullable α → Option (SomePayload α)
  | .undef => .some .unitVal
  | .null => .some .nullVal
  | .val v => .some (.raw v)

/-- Source `Option.wrapAsync(fn)`: `fn().then(some).catch(none)` — every
resolved value is handed to the `some` constructor function, and only a
rejection produces `none()`. -/
def Option.wrapAsync {θ : Type u} (fn : Unit → Except θ (Nullable α)) :
    OptionAsync (SomePayload α) :=
  match fn () with
  | .ok u => ⟨someCtor u⟩
  | .error _ => ⟨.none⟩

/-- Input universe of `Result.fromOr` / `fromOrElse`, whose declared data
parameter type is `null | Result<T, unknown> | T | undefined` (the inner
error type is collapsed to `ε` in the model; the code never reads it). -/
inductive ResFromInput (α : Type u) (ε : Type u) where
  | null : ResFromInput α ε
  | undefined : ResFromInput α ε
  | res (r : Result α ε) : ResFromInput α ε
  | raw (v : α) : ResFromInput α ε
  deriving DecidableEq, Repr

/-- Source `Result.fromOr(data, error)`: `data instanceof Ok` is returned
as is; `data instanceof Err` is replaced by `err(error)`; `null`/
`undefined` give `err(error)`; any other value is wrapped in `ok(data)`. -/
def Result.fromOr (data : ResFromInput α ε) (error : ε) : Result α ε :=
  match data with
  | .res (.ok v) => .ok v
  | .res (.err _) => .err error
  | .null => .err error
  | .undefined => .err error
  | .raw v => .ok v

/-- Source `Result.fromOrElse(data, error)`: `data instanceof Ok` is
returned as is; `data instanceof Err` is replaced by `error()` (the
callback returns a full `Result`); `null`/`undefined` give `error()`; any
other value is wrapped in `ok(data)`. -/
def Result.fromOrElse (data : ResFromInput α ε) (error : Unit → Result α ε) :
    Result α ε :=
  match data with
  | .res (.ok v) => .ok v
  | .res (.err _) => error ()
  | .null => error ()
  | .undefined => error ()
  | .raw v => .ok v

/-- Runtime-value universe over which `Option.isOption` is examined:
primitives, `null`, plain objects (including `Promise` instances),
`Some`/`None` instances, and `OptionAsync` instances. -/
inductive JsInput (α : Type u) where
  | primitive : JsInput α
  | jsNull : JsInput α
  | plainObject : JsInput α
  | optionVal (o : Option α) : JsInput α
  | optionAsyncVal (oa : OptionAsync α) : JsInput α
  deriving DecidableEq, Repr

/-- Test `typeof value === 'object'`: false only for primitives (`typeof
null` is `'object'` in JS). -/
def JsInput.typeofIsObject : JsInput α → Bool
  | .primitive => false
  | _ => true

/-- Test `value === null`. -/
def JsInput.isJsNull : JsInput α → Bool
  | .jsNull => true
  | _ => false

/-- Test `Object.hasOwnProperty.call(value, OPTION_SYMBOL)`: the `Some` and
`None` classes declare the instance field `[OPTION_SYMBOL]`, so only their
instances carry it as an own property; `OptionAsync` (whose only field is
`option`), `Promise`, and every other object do not. -/
def JsInput.hasOwnOptionSymbol : JsInput α → Bool
  | .optionVal _ => true
  | _ => false

/-- Source `Option.isOption(value)`: `typeof value !== 'object' || value
=== null` gives `false`, otherwise the own-property check decides. -/
def Option.isOption (value : JsInput α) : Bool :=
  if !value.typeofIsObject || value.isJsNull then false
  else value.hasOwnOptionSymbol

/-- Input universe of `Option.fromAsync`, whose declared parameter type is
`OptionAsync<T> | Promise<null | Option<T> | T | undefined>` (a settled
promise is modelled by its resolution value). -/
inductive FromAsyncInput (α : Type u) where
  | wrapped (oa : OptionAsync α) : FromAsyncInput α
  | promise (p : FromInput α) : FromAsyncInput α
  deriving DecidableEq, Repr

/-- View of a `fromAsync` argument as the runtime value `isOption`
inspects: an `OptionAsync` instance, or a `Promise` instance (an object
without the `OPTION_SYMBOL` own property). -/
def FromAsyncInput.asJsInput : FromAsyncInput α → JsInput α
  | .wrapped oa => .optionAsyncVal oa
  | .promise _ => .plainObject

/-- Source `Option.fromAsync(value)`: `if (isOption(value)) return value;`
then `new OptionAsync(value.then(v => from(v)))`. Awaiting an
`OptionAsync` argument through its `then` method yields its inner option;
the pass-through branch is representable only for that shape, and for a
raw promise the guard is provably false (see the C9 theorem), so the
promise arm goes straight to the normalization. -/
def Option.fromAsync : FromAsyncInput α → OptionAsync α
  | .wrapped oa =>
    if Option.isOption (FromAsyncInput.wrapped oa).asJsInput then oa
    else ⟨Option.fromValue (FromInput.opt oa.option)⟩
  | .promise p => ⟨Option.fromValue p⟩

/-- A host value as seen by the `toString` utility: its default
stringification `String(val)`, whether `JSON.stringify(val)` succeeds,
and the JSON text it produces when it does. -/
structure JsValue where
  strRepr : String
  jsonOk : Bool
  jsonRepr : String
  deriving DecidableEq, Repr

/-- Behaviour of `JSON.stringify` applied to a JS *string*: it always
succeeds and wraps the string in quotes (no characters needing escapes
occur at the only call site, the literal marker `"[object Object]"`). -/
def jsonStringifyString (s : String) : String := "\"" ++ s ++ "\""

/-- Source `toString(val)` (toString.ts): `let value = String(val)`; when
`value` is the marker, the code runs `value = JSON.stringify(value)` — on
`value`, the *string* produced by `String(val)`, not on `val`.
Stringifying a string never throws, so the `catch` branch (whose comment
reads "Leave it as [object Object]") is unreachable. -/
def toString (val : JsValue) : String :=
  let value := val.strRepr
  if value = "[object Object]" then jsonStringifyString value
  else value

/-- Modelled from the spec: the documented behaviour of `toString` — fall
back to the structured (JSON) stringification of `val` *itself* when the
default stringification yields the marker, and leave the marker as-is
only when that structured stringification fails. -/
def toStringSpec (val : JsValue) : String :=
  if val.strRepr = "[object Object]" then
    if val.jsonOk then val.jsonRepr else val.strRepr
  else val.strRepr

end TsCore

/-!
Heap model for the immutability invariant: `Some`/`None`/`Ok`/`Err`
instances live in a JS heap; `Object.freeze` at construction is the cell
flag `frozen`. Each constructor and method is a function from (heap,
receiver reference) to (heap, result reference), translated from the class
bodies: the short-circuit arms `return this` keep both components, the
constructing arms allocate through the public `Some.new`/`None.new`/
`Ok.new`/`Err.new` entry points (which call `Object.freeze`). Methods are
taken at a fixed payload type; unreachable receiver shapes (dangling
reference, wrong cell kind) are modelled as no-ops.
-/
namespace TsHeap

/-- Contents of a heap cell: an `Option` instance or a `Result` instance. -/
inductive CellVal (α ε : Type) where
  | opt (o : TsCore.Option α) : CellVal α ε
  | res (r : TsCore.Result α ε) : CellVal α ε
  deriving DecidableEq, Repr

/-- A heap cell: the variant-with-payload fixed at construction, and the
`Object.freeze` flag. -/
structure Cell (α ε : Type) where
  val : CellVal α ε
  frozen : Bool
  deriving DecidableEq, Repr

/-- The JS heap restricted to Option/Result instances. -/
structure Heap (α ε : Type) where
  cells : List (Cell α ε)
  deriving DecidableEq, Repr

/-- A reference to a heap cell (its index). -/
abbrev Ref := Nat

/-- Allocation of a new cell at the end of the heap. -/
def Heap.alloc {α ε : Type} (h : Heap α ε) (c : Cell α ε) :
    Heap α ε × Ref :=
  (⟨h.cells ++ [c]⟩, h.cells.length)

variable {α ε : Type}

/-- Source `Some.new(value)`: constructs and `Object.freeze`s the instance. -/
def someNew (h : Heap α ε) (v : α) : Heap α ε × Ref :=
  h.alloc ⟨.opt (.some v), true⟩

/-- Source `None.new()`: constructs and `Object.freeze`s the instance. -/
def noneNew (h : Heap α ε) : Heap α ε × Ref :=
  h.alloc ⟨.opt .none, true⟩

/-- Source `Ok.new(value)`: constructs and `Object.freeze`s the instance. -/
def okNew (h : Heap α ε) (v : α) : Heap α ε × Ref :=
  h.alloc ⟨.res (.ok v), true⟩

/-- Source `Err.new(error)`: constructs and `Object.freeze`s the instance. -/
def errNew (h : Heap α ε) (e : ε) : Heap α ε × Ref :=
  h.alloc ⟨.res (.err e), true⟩

/-- Heap-level `Option.map`: `None.map` returns `this` (no allocation);
`Some.map` constructs `some(fn(this.value))`. -/
def optMap (h : Heap α ε) (r : Ref) (f : α → α) : Heap α ε × Ref :=
  match h.cells.get? r with
  | some ⟨.opt (.some v), _⟩ => someNew h (f v)
  | some ⟨.opt .none, _⟩ => (h, r)
  | _ => (h, r)

/-- Heap-level `Option.andThen`: `None.andThen` returns `this`;
`Some.andThen` returns `fn(this.value)` — whatever the callback produces,
running it against the current heap. -/
def optAndThen (h : Heap α ε) (r : Ref)
    (g : α → Heap α ε → Heap α ε × Ref) : Heap α ε × Ref :=
  match h.cells.get? r with
  | some ⟨.opt (.some v), _⟩ => g v h
  | some ⟨.opt .none, _⟩ => (h, r)
  | _ => (h, r)

/-- Heap-level `Option.okOr`: `Some` constructs `ok(this.value)`, `None`
constructs `err(error)`. -/
def optOkOr (h : Heap α ε) (r : Ref) (e : ε) : Heap α ε × Ref :=
  match h.cells.get? r with
  | some ⟨.opt (.some v), _⟩ => okNew h v
  | some ⟨.opt .none, _⟩ => errNew h e
  | _ => (h, r)

/-- Heap-level `Option.okOrElse`: `Some` constructs `ok(this.value)`,
`None` constructs `err(fn())`. -/
def optOkOrElse (h : Heap α ε) (r : Ref) (fn : Unit → ε) : Heap α ε × Ref :=
  match h.cells.get? r with
  | some ⟨.opt (.some v), _⟩ => okNew h v
  | some ⟨.opt .none, _⟩ => errNew h (fn ())
  | _ => (h, r)

/-- Heap-level `Result.map`: `Err.map` returns `this`; `Ok.map` constructs
`ok(fn(this.value))`. -/
def resMap (h : Heap α ε) (r : Ref) (f : α → α) : Heap α ε × Ref :=
  match h.cells.get? r with
  | some ⟨.res (.ok v), _⟩ => okNew h (f v)
  | some ⟨.res (.err _), _⟩ => (h, r)
  | _ => (h, r)

/-- Heap-level `Result.mapErr`: `Ok.mapErr` returns `this`; `Err.mapErr`
constructs `err(fn(this.error))`. -/
def resMapErr (h : Heap α ε) (r : Ref) (f : ε → ε) : Heap α ε × Ref :=
  match h.cells.get? r with
  | some ⟨.res (.ok _), _⟩ => (h, r)
  | some ⟨.res (.err e), _⟩ => errNew h (f e)
  | _ => (h, r)

/-- Heap-level `Result.andThen`: `Err.andThen` returns `this`;
`Ok.andThen` returns `fn(this.value)`. -/
def resAndThen (h : Heap α ε) (r : Ref)
    (g : α → Heap α ε → Heap α ε × Ref) : Heap α ε × Ref :=
  match h.cells.get? r with
  | some ⟨.res (.ok v), _⟩ => g v h
  | some ⟨.res (.err _), _⟩ => (h, r)
  | _ => (h, r)

/-- Heap-level `Result.orElse`: `Ok.orElse` returns `this`; `Err.orElse`
returns `fn(this.error)`. -/
def resOrElse (h : Heap α ε) (r : Ref)
    (g : ε → Heap α ε → Heap α ε × Ref) : Heap α ε × Ref :=
  match h.cells.get? r with
  | some ⟨.res (.ok _), _⟩ => (h, r)
  | some ⟨.res (.err e), _⟩ => g e h
  | _ => (h, r)

/-- Heap-level `Result.ok()` projection: `Ok` constructs
`some(this.value)`, `Err` constructs `none()`. -/
def resOk (h : Heap α ε) (r : Ref) : Heap α ε × Ref :=
  match h.cells.get? r with
  | some ⟨.res (.ok v), _⟩ => someNew h v
  | some ⟨.res (.err _), _⟩ => noneNew h
  | _ => (h, r)

/-- Heap-level `Result.err()` projection: `Err` constructs
`some(this.error)`, `Ok` constructs `none()`. Taken at a homogeneous
payload type so the resulting `Some<E>` lives in the same heap. -/
def resErr {α : Type} (h : Heap α α) (r : Ref) : Heap α α × Ref :=
  match h.cells.get? r with
  | some ⟨.res (.ok _), _⟩ => noneNew h
  | some ⟨.res (.err e), _⟩ => someNew h e
  | _ => (h, r)

/-- Heap extension: the new heap keeps every existing cell at its index
and only appends fresh ones — no mutation of any existing instance. -/
def HeapExtends (h hp : Heap α ε) : Prop :=
  ∃ tail, hp.cells = h.cells ++ tail

/-- Outcome shape of a non-bind operation: it returns the receiver itself
with the heap untouched (short-circuit), or allocates exactly one fresh
frozen cell and returns it. -/
def NewOrSelf (h : Heap α ε) (r : Ref) (out : Heap α ε × Ref) : Prop :=
  out = (h, r) ∨
    ∃ c : Cell α ε, out.1 = ⟨h.cells ++ [c]⟩ ∧ out.2 = h.cells.length ∧
      c.frozen = true

end TsHeap

namespace TsCore

/-- Helper: `Result.allLoop` over an all-`Ok` list appends the values to
the accumulator. -/
theorem allLoop_map_ok {α ε : Type} (vs : List α) (acc : List α) :
    Result.allLoop ((vs.map Result.ok : List (Result α ε))) acc =
      .ok (acc ++ vs) := by
  induction vs generalizing acc with
  | nil => simp [Result.allLoop]
  | cons v rest ih => simp [Result.allLoop, ih]

/-- Helper: `Result.allLoop` returns the first `Err` whatever follows it. -/
theorem allLoop_first_err {α ε : Type} (vs : List α) (e : ε)
    (suf : List (Result α ε)) (acc : List α) :
    Result.allLoop (vs.map Result.ok ++ Result.err e :: suf) acc = .err e := by
  induction vs generalizing acc with
  | nil => simp [Result.allLoop]
  | cons v rest ih => simp [Result.allLoop, ih]

/-- Helper: `Result.anyLoop` over an all-`Err` list appends the errors to
the accumulator. -/
theorem anyLoop_map_err {α ε : Type} (es : List ε) (acc : List ε) :
    Result.anyLoop ((es.map Result.err : List (Result α ε))) acc =
      .err (acc ++ es) := by
  induction es generalizing acc with
  | nil => simp [Result.anyLoop]
  | cons e rest ih => simp [Result.anyLoop, ih]

/-- Helper: `Result.anyLoop` returns the first `Ok` whatever follows it. -/
theorem anyLoop_first_ok {α ε : Type} (es : List ε) (v : α)
    (suf : List (Result α ε)) (acc : List ε) :
    Result.anyLoop (es.map Result.err ++ Result.ok v :: suf) acc = .ok v := by
  induction es generalizing acc with
  | nil => simp [Result.anyLoop]
  | cons e rest ih => simp [Result.anyLoop, ih]

/-- C2: short-circuit law — for every function, `map` on a `None`
receiver returns the receiver unchanged (the function is never consulted:
the result is the same for all functions), `map` on an `Err` receiver
returns the receiver unchanged, and `mapErr` on an `Ok` receiver returns
the receiver unchanged. -/
theorem c2_short_circuit :
    ∀ (α β ε φ : Type) (f : α → β) (g : ε → φ) (e : ε) (v : α),
      (Option.none : Option α).map f = Option.none
      ∧ (Result.err e : Result α ε).map f = Result.err e
      ∧ (Result.ok v : Result α ε).mapErr g = Result.ok v :=
  fun _ _ _ _ _ _ _ _ => ⟨rfl, rfl, rfl⟩

/-- C3: bind associativity — `a.andThen(f).andThen(g)` equals
`a.andThen(v => f(v).andThen(g))` for every `Option` and every `Result`. -/
theorem c3_bind_associativity :
    (∀ (α β γ : Type) (a : Option α) (f : α → Option β) (g : β → Option γ),
      (a.andThen f).andThen g = a.andThen fun v => (f v).andThen g)
    ∧ (∀ (α β γ ε : Type) (a : Result α ε) (f : α → Result β ε)
        (g : β → Result γ ε),
      (a.andThen f).andThen g = a.andThen fun v => (f v).andThen g) :=
  ⟨fun _ _ _ a _ _ => by cases a <;> rfl,
   fun _ _ _ _ a _ _ => by cases a <;> rfl⟩

/-- C4: aggregation asymmetry — `Result.all` over all-`Ok` arguments is
`Ok` of the values in argument order, and it returns the first `Err` in
argument order no matter what follows it (later arguments are not
inspected); `Result.any` returns the first `Ok` in argument order no
matter what follows it, and over all-`Err` arguments it is `Err` of the
list of all error payloads in argument order. -/
theorem c4_aggregation_asymmetry :
    (∀ (α ε : Type) (vs : List α),
      Result.all ((vs.map Result.ok : List (Result α ε))) = .ok vs)
    ∧ (∀ (α ε : Type) (vs : List α) (e : ε) (suf : List (Result α ε)),
      Result.all (vs.map Result.ok ++ Result.err e :: suf) = .err e)
    ∧ (∀ (α ε : Type) (es : List ε),
      Result.any ((es.map Result.err : List (Result α ε))) = .err es)
    ∧ (∀ (α ε : Type) (es : List ε) (v : α) (suf : List (Result α ε)),
      Result.any (es.map Result.err ++ Result.ok v :: suf) = .ok v) :=
  ⟨fun _ _ vs => allLoop_map_ok vs [],
   fun _ _ vs e suf => allLoop_first_err vs e suf [],
   fun _ _ es => anyLoop_map_err es [],
   fun _ _ es v suf => anyLoop_first_ok es v suf []⟩

/-- C5 counterexample: a function that returns normally with `null` does
NOT produce a `Some` — `Option.wrap` routes the returned value through
`Option.from`, which maps `null` to `None`. -/
theorem c5_counterexample :
    Option.wrap (fun _ => (Except.ok FromInput.null : Except Unit (FromInput Nat)))
      = Option.none := rfl

/-- C5 amended: `Option.wrap(fn)` returns `None` when `fn` raises (the
error is discarded); on a normal return it applies `Option.from` to the
returned value — `null`/`undefined` give `None`, a returned `Option` is
passed through (`Some` as is, `None` as a fresh `None`), and every other
value is wrapped in `Some`. -/
theorem c5_wrap_amended :
    ∀ (θ α : Type) (fn : Unit → Except θ (FromInput α)),
      Option.wrap fn =
        (match fn () with
          | .error _ => Option.none
          | .ok .null => Option.none
          | .ok .undefined => Option.none
          | .ok (.raw v) => Option.some v
          | .ok (.opt o) => o) := by
  intro θ α fn
  rcases hfn : fn () with e | p
  · simp only [Option.wrap, hfn]
  · rcases p with _ | _ | o | v
    all_goals simp only [Option.wrap, hfn, Option.fromValue]
    cases o <;> rfl

/-- C6 counterexample: a data argument that is already an `Err` is NOT
passed through unchanged — `Result.fromOr` replaces it with `err(error)`. -/
theorem c6_counterexample :
    Result.fromOr (ResFromInput.res (Result.err 0) : ResFromInput Nat Nat) 1
        = Result.err 1
    ∧ Result.fromOr (ResFromInput.res (Result.err 0) : ResFromInput Nat Nat) 1
        ≠ Result.err 0 :=
  ⟨rfl, by decide⟩

/-- C6 amended: `Result.fromOr(data, error)` and
`Result.fromOrElse(data, errorFn)` pass through only an `Ok` data
argument; an `Err` data argument is replaced by `err(error)` /
`errorFn()` (whose payload may differ from the original, and `errorFn`
may even return an `Ok`); `null`/`undefined` give `err(error)` /
`errorFn()`; any other value is wrapped in `Ok`. -/
theorem c6_from_amended :
    ∀ (α ε : Type) (v : α) (e0 e : ε) (efn : Unit → Result α ε),
      Result.fromOr (ResFromInput.res (Result.ok v)) e = Result.ok v
      ∧ Result.fromOr (ResFromInput.res (Result.err e0) : ResFromInput α ε) e
          = Result.err e
      ∧ Result.fromOr (ResFromInput.null : ResFromInput α ε) e = Result.err e
      ∧ Result.fromOr (ResFromInput.undefined : ResFromInput α ε) e
          = Result.err e
      ∧ Result.fromOr (ResFromInput.raw v : ResFromInput α ε) e = Result.ok v
      ∧ Result.fromOrElse (ResFromInput.res (Result.ok v)) efn = Result.ok v
      ∧ Result.fromOrElse (ResFromInput.res (Result.err e0) : ResFromInput α ε)
            efn
          = efn ()
      ∧ Result.fromOrElse (ResFromInput.null : ResFromInput α ε) efn = efn ()
      ∧ Result.fromOrElse (ResFromInput.undefined : ResFromInput α ε) efn
          = efn ()
      ∧ Result.fromOrElse (ResFromInput.raw v : ResFromInput α ε) efn
          = Result.ok v :=
  fun _ _ _ _ _ _ =>
    ⟨rfl, rfl, rfl, rfl, rfl, rfl, rfl, rfl, rfl, rfl⟩

/-- C7: evaluation of `toString` at a failing input. For an object whose
default stringification is the marker and whose own JSON stringification
is `{"a":1}`, the code returns the JSON-quoted *marker string* (it
stringifies `value`, the string produced by `String(val)`, instead of
`val`), while the specified behaviour returns the JSON stringification of
the value itself. -/
theorem c7_toString_bug :
    toString ⟨"[object Object]", true, "\x7b\"a\":1\x7d"⟩
        = "\"[object Object]\""
    ∧ toStringSpec ⟨"[object Object]", true, "\x7b\"a\":1\x7d"⟩
        = "\x7b\"a\":1\x7d"
    ∧ toString ⟨"[object Object]", true, "\x7b\"a\":1\x7d"⟩
        ≠ toStringSpec ⟨"[object Object]", true, "\x7b\"a\":1\x7d"⟩ :=
  ⟨by decide, by decide, by decide⟩

/-- C9: `Option.isOption` returns `true` exactly for `Some`/`None`
instances — non-objects, `null`, plain objects (including promises), and
`OptionAsync` instances all give `false` — so `Option.fromAsync` never
takes its pass-through branch for an `OptionAsync` argument and instead
normalizes it through its `then` method (yielding its inner option run
through `Option.from`). -/
theorem c9_isOption_optionAsync :
    ∀ (α : Type) (o : Option α) (oa : OptionAsync α) (p : FromInput α),
      Option.isOption (JsInput.optionVal o) = true
      ∧ Option.isOption (JsInput.primitive : JsInput α) = false
      ∧ Option.isOption (JsInput.jsNull : JsInput α) = false
      ∧ Option.isOption (JsInput.plainObject : JsInput α) = false
      ∧ Option.isOption (JsInput.optionAsyncVal oa) = false
      ∧ Option.isOption (FromAsyncInput.wrapped oa).asJsInput = false
      ∧ Option.isOption (FromAsyncInput.promise p).asJsInput = false
      ∧ Option.fromAsync (FromAsyncInput.wrapped oa)
          = ⟨Option.fromValue (FromInput.opt oa.option)⟩
      ∧ Option.fromAsync (FromAsyncInput.wrapped oa) = ⟨oa.option⟩
      ∧ Option.fromAsync (FromAsyncInput.promise p) = ⟨Option.fromValue p⟩ :=
  fun α o oa p =>
    ⟨rfl, rfl, rfl, rfl, rfl, rfl, rfl, rfl,
     by obtain ⟨o2⟩ := oa; cases o2 <;> rfl, rfl⟩

/-- C10: nullish divergence between `Option.wrap` and `Option.wrapAsync` —
`wrap` maps a normal return of `null` or `undefined` to `None` (through
`Option.from`), while `wrapAsync` hands every resolved value to the
`some` constructor function, so a promise resolving to `null` yields
`Some(null)` and a promise resolving to `undefined` yields `Some(Unit)`
(the constructor default); every resolution yields a `Some`, and only a
rejection yields `None`. -/
theorem c10_wrap_wrapAsync_divergence :
    ∀ (θ α : Type) (e : θ) (v : α) (u : Nullable α),
      Option.wrap (fun _ => (Except.ok FromInput.null : Except θ (FromInput α)))
          = Option.none
      ∧ Option.wrap
            (fun _ => (Except.ok FromInput.undefined : Except θ (FromInput α)))
          = Option.none
      ∧ Option.wrapAsync
            (fun _ => (Except.ok Nullable.null : Except θ (Nullable α)))
          = ⟨Option.some SomePayload.nullVal⟩
      ∧ Option.wrapAsync
            (fun _ => (Except.ok Nullable.undef : Except θ (Nullable α)))
          = ⟨Option.some SomePayload.unitVal⟩
      ∧ Option.wrapAsync
            (fun _ => (Except.ok (Nullable.val v) : Except θ (Nullable α)))
          = ⟨Option.some (SomePayload.raw v)⟩
      ∧ (Option.wrapAsync
            (fun _ => (Except.ok u : Except θ (Nullable α)))).option.isSome
          = true
      ∧ Option.wrapAsync (fun _ => (Except.error e : Except θ (Nullable α)))
          = ⟨Option.none⟩ :=
  fun θ α e v u =>
    ⟨rfl, rfl, rfl, rfl, rfl, by cases u <;> rfl, rfl⟩

/-- C1: sync/async parity — for every chaining operation `op` of
`OptionAsync` (`map`, `andThen`, `okOr`, `okOrElse`, `match`, `unwrapOr`,
`unwrapOrElse`) and of `ResultAsync` (`map`, `mapErr`, `andThen`,
`orElse`, `ok`, `err`, `match`, `unwrapOr`, `unwrapOrElse`), awaiting the
async operation equals applying the corresponding sync operation to the
awaited inner value (`await x` is the wrapper's settled `option` /
`result` field), including the short-circuit receivers, which the case
analyses cover. For `andThen`/`orElse` the callback is the plain sync
shape both signatures accept. -/
theorem c1_sync_async_parity :
    (∀ (α β : Type) (x : OptionAsync α) (f : α → β),
      (x.map f).option = x.option.map f)
    ∧ (∀ (α β : Type) (x : OptionAsync α) (f : α → Option β),
      (x.andThen fun v => OptionLike.plain (f v)).option
        = x.option.andThen f)
    ∧ (∀ (α ε : Type) (x : OptionAsync α) (e : ε),
      (x.okOr e).result = x.option.okOr e)
    ∧ (∀ (α ε : Type) (x : OptionAsync α) (fe : Unit → ε),
      (x.okOrElse fe).result = x.option.okOrElse fe)
    ∧ (∀ (α υ : Type) (x : OptionAsync α) (m : OptionMatcher α υ),
      x.matchWith m = x.option.matchWith m)
    ∧ (∀ (α : Type) (x : OptionAsync α) (d : α),
      x.unwrapOr d = x.option.unwrapOr d)
    ∧ (∀ (α : Type) (x : OptionAsync α) (fd : Unit → α),
      x.unwrapOrElse fd = x.option.unwrapOrElse fd)
    ∧ (∀ (α β ε : Type) (x : ResultAsync α ε) (f : α → β),
      (x.map f).result = x.result.map f)
    ∧ (∀ (α ε φ : Type) (x : ResultAsync α ε) (f : ε → φ),
      (x.mapErr f).result = x.result.mapErr f)
    ∧ (∀ (α β ε : Type) (x : ResultAsync α ε) (f : α → Result β ε),
      (x.andThen fun v => ResultLike.plain (f v)).result
        = x.result.andThen f)
    ∧ (∀ (α ε φ : Type) (x : ResultAsync α ε) (f : ε → Result α φ),
      (x.orElse fun e => ResultLike.plain (f e)).result
        = x.result.orElse f)
    ∧ (∀ (α ε : Type) (x : ResultAsync α ε),
      x.okOption.option = x.result.okOption)
    ∧ (∀ (α ε : Type) (x : ResultAsync α ε),
      x.errOption.option = x.result.errOption)
    ∧ (∀ (α ε υ : Type) (x : ResultAsync α ε) (m : ResultMatcher α ε υ),
      x.matchWith m = x.result.matchWith m)
    ∧ (∀ (α ε : Type) (x : ResultAsync α ε) (d : α),
      x.unwrapOr d = x.result.unwrapOr d)
    ∧ (∀ (α ε : Type) (x : ResultAsync α ε) (fd : Unit → α),
      x.unwrapOrElse fd = x.result.unwrapOrElse fd) :=
  ⟨fun _ _ x _ => by obtain ⟨o⟩ := x; cases o <;> rfl,
   fun _ _ x _ => by obtain ⟨o⟩ := x; cases o <;> rfl,
   fun _ _ x _ => by obtain ⟨o⟩ := x; cases o <;> rfl,
   fun _ _ x _ => by obtain ⟨o⟩ := x; cases o <;> rfl,
   fun _ _ _ _ => rfl,
   fun _ _ _ => rfl,
   fun _ _ _ => rfl,
   fun _ _ _ x _ => by obtain ⟨r⟩ := x; cases r <;> rfl,
   fun _ _ _ x _ => by obtain ⟨r⟩ := x; cases r <;> rfl,
   fun _ _ _ x _ => by obtain ⟨r⟩ := x; cases r <;> rfl,
   fun _ _ _ x _ => by obtain ⟨r⟩ := x; cases r <;> rfl,
   fun _ _ _ => rfl,
   fun _ _ _ => rfl,
   fun _ _ _ _ _ => rfl,
   fun _ _ _ _ => rfl,
   fun _ _ _ _ => rfl⟩

end TsCore

namespace TsHeap

/-- C8: immutability invariant — every `Some`/`None`/`Ok`/`Err` produced
by the public constructors (`Some.new` etc., which call `Object.freeze`)
is a fresh frozen cell; every non-bind operation either returns the
receiver itself with the heap untouched (short-circuit) or allocates
exactly one fresh frozen cell; the bind operations (`andThen`/`orElse`)
return the receiver on short-circuit and otherwise hand control to the
callback, and extend the heap whenever the callback does; heap extension
never changes an existing cell, so every instance stays in its variant
with its payload unchanged for its entire lifetime. -/
theorem c8_immutability :
    (∀ (α ε : Type) (h : Heap α ε) (v : α),
      someNew h v = (⟨h.cells ++ [⟨.opt (.some v), true⟩]⟩, h.cells.length))
    ∧ (∀ (α ε : Type) (h : Heap α ε),
      noneNew h = (⟨h.cells ++ [⟨.opt .none, true⟩]⟩, h.cells.length))
    ∧ (∀ (α ε : Type) (h : Heap α ε) (v : α),
      okNew h v = (⟨h.cells ++ [⟨.res (.ok v), true⟩]⟩, h.cells.length))
    ∧ (∀ (α ε : Type) (h : Heap α ε) (e : ε),
      errNew h e = (⟨h.cells ++ [⟨.res (.err e), true⟩]⟩, h.cells.length))
    ∧ (∀ (α ε : Type) (h : Heap α ε) (r : Ref) (f : α → α),
      NewOrSelf h r (optMap h r f))
    ∧ (∀ (α ε : Type) (h : Heap α ε) (r : Ref) (e : ε),
      NewOrSelf h r (optOkOr h r e))
    ∧ (∀ (α ε : Type) (h : Heap α ε) (r : Ref) (fn : Unit → ε),
      NewOrSelf h r (optOkOrElse h r fn))
    ∧ (∀ (α ε : Type) (h : Heap α ε) (r : Ref) (f : α → α),
      NewOrSelf h r (resMap h r f))
    ∧ (∀ (α ε : Type) (h : Heap α ε) (r : Ref) (f : ε → ε),
      NewOrSelf h r (resMapErr h r f))
    ∧ (∀ (α ε : Type) (h : Heap α ε) (r : Ref),
      NewOrSelf h r (resOk h r))
    ∧ (∀ (α : Type) (h : Heap α α) (r : Ref),
      NewOrSelf h r (resErr h r))
    ∧ (∀ (α ε : Type) (h : Heap α ε) (r : Ref)
        (g : α → Heap α ε → Heap α ε × Ref),
      (∀ v hh, HeapExtends hh (g v hh).1) →
        HeapExtends h (optAndThen h r g).1)
    ∧ (∀ (α ε : Type) (h : Heap α ε) (r : Ref)
        (g : α → Heap α ε → Heap α ε × Ref),
      (∀ v hh, HeapExtends hh (g v hh).1) →
        HeapExtends h (resAndThen h r g).1)
    ∧ (∀ (α ε : Type) (h : Heap α ε) (r : Ref)
        (g : ε → Heap α ε → Heap α ε × Ref),
      (∀ e hh, HeapExtends hh (g e hh).1) →
        HeapExtends h (resOrElse h r g).1)
    ∧ (∀ (α ε : Type) (h hp : Heap α ε), HeapExtends h hp →
      ∀ i, i < h.cells.length → hp.cells[i]? = h.cells[i]?)
    ∧ (∀ (α ε : Type) (h : Heap α ε) (r : Ref) (out : Heap α ε × Ref),
      NewOrSelf h r out → HeapExtends h out.1) :=
  ⟨fun _ _ _ _ => rfl,
   fun _ _ _ => rfl,
   fun _ _ _ _ => rfl,
   fun _ _ _ _ => rfl,
   fun _ _ h r f => by
     unfold NewOrSelf optMap
     split
     all_goals first
       | exact Or.inl rfl
       | exact Or.inr ⟨_, rfl, rfl, rfl⟩,
   fun _ _ h r e => by
     unfold NewOrSelf optOkOr
     split
     all_goals first
       | exact Or.inl rfl
       | exact Or.inr ⟨_, rfl, rfl, rfl⟩,
   fun _ _ h r fn => by
     unfold NewOrSelf optOkOrElse
     split
     all_goals first
       | exact Or.inl rfl
       | exact Or.inr ⟨_, rfl, rfl, rfl⟩,
   fun _ _ h r f => by
     unfold NewOrSelf resMap
     split
     all_goals first
       | exact Or.inl rfl
       | exact Or.inr ⟨_, rfl, rfl, rfl⟩,
   fun _ _ h r f => by
     unfold NewOrSelf resMapErr
     split
     all_goals first
       | exact Or.inl rfl
       | exact Or.inr ⟨_, rfl, rfl, rfl⟩,
   fun _ _ h r => by
     unfold NewOrSelf resOk
     split
     all_goals first
       | exact Or.inl rfl
       | exact Or.inr ⟨_, rfl, rfl, rfl⟩,
   fun _ h r => by
     unfold NewOrSelf resErr
     split
     all_goals first
       | exact Or.inl rfl
       | exact Or.inr ⟨_, rfl, rfl, rfl⟩,
   fun _ _ h r g hg => by
     unfold optAndThen
     split
     all_goals first
       | exact ⟨[], (List.append_nil _).symm⟩
       | (rename_i v fz heq; exact hg v h),
   fun _ _ h r g hg => by
     unfold resAndThen
     split
     all_goals first
       | exact ⟨[], (List.append_nil _).symm⟩
       | (rename_i v fz heq; exact hg v h),
   fun _ _ h r g hg => by
     unfold resOrElse
     split
     all_goals first
       | exact ⟨[], (List.append_nil _).symm⟩
       | (rename_i e fz heq; exact hg e h),
   fun _ _ h hp hext i hi => by
     obtain ⟨tail, htail⟩ := hext
     rw [htail]
     exact List.getElem?_append_left hi,
   fun _ _ h r out hns => by
     rcases hns with hself | ⟨c, h1, h2, h3⟩
     · rw [hself]
       exact ⟨[], by simp⟩
     · exact ⟨[c], by rw [h1]⟩⟩

/-- Witness for C8: the bind-operation conjunct applied to a concrete
one-cell heap holding `Some 1` and the callback `v => Some.new(v + 1)`,
whose heap-extension hypothesis is discharged by `rfl`. -/
theorem c8_immutability_witness :
    HeapExtends
      (⟨[⟨CellVal.opt (TsCore.Option.some 1), true⟩]⟩ : Heap Nat Nat)
      (optAndThen
        (⟨[⟨CellVal.opt (TsCore.Option.some 1), true⟩]⟩ : Heap Nat Nat) 0
        (fun v hh => someNew hh (v + 1))).1 :=
  c8_immutability.2.2.2.2.2.2.2.2.2.2.2.1 Nat Nat
    ⟨[⟨CellVal.opt (TsCore.Option.some 1), true⟩]⟩ 0
    (fun v hh => someNew hh (v + 1))
    (fun v _hh => ⟨[⟨CellVal.opt (TsCore.Option.some (v + 1)), true⟩], rfl⟩)

end TsHeap
